import Mathlib

/-!
Verification of the core of `NumpyDeque` (src/NumpyDeque/NumpyDeque.py):
a bounded double-ended queue kept as a contiguous window `[_i, _j)` inside a
padded buffer `_data` of capacity `_bcap`, with logical capacity `_qcap` and
anchor offset `_s`.

Shallow embedding conventions:
- Python `int` is `Int`.  All divisions in the source are Python floor
  divisions `//` with positive literal divisors; Lean's `Int` division `/`
  is Euclidean division, which coincides with floor division for positive
  divisors, so `/` is used directly.
- The numpy buffer `_data` is modelled as a total function `Int → Int`
  (the element dtype is irrelevant to the claims; values are integers).
  `np.empty` garbage is modelled as the constant 0 function.
  Slice assignment `a[lo:hi] = a[src:...]` is modelled as a functional
  update reading the old buffer (numpy copies overlapping inputs first).
- Python `str` is `List Char`; `.strip()` / `.lower()` are modelled for the
  ASCII strings the API deals in.
- Operations are modelled as total state transformers.  For `maxsize ≥ 1`
  every slice the operations execute has nonnegative bounds and matching
  source/destination lengths, and there the functional-update model agrees
  with numpy cell for cell.  A `maxsize = 0` deque, however, can reach a
  `_shift_buffer` call whose slice assignment has a negative stop: Python
  wraps it (`_data[0:-1]` is `_bcap - 1` cells) and numpy raises
  `ValueError` on the length mismatch, aborting the operation mid-mutation.
  That raising path is modelled separately and faithfully by `pySliceIdx`,
  `pySliceLen`, `shiftBufferRaises` and `putObservedState`, which the C1
  counterexample uses.
- Construction can raise, so `__init__` is modelled in `Except`:
  `ValueError` for the invalid-priority branch and `IndexError` for
  `priority[0]` on an empty string.
-/

/-- State of a `NumpyDeque` instance: the buffer `_data`, the capacities
`_qcap` (maxsize) and `_bcap` (buffer capacity), the priority flag
`_priority` (one of "r", "ro", "l", "lo", "e" as a char list), the anchor
offset `_s`, and the window cursors `_i`, `_j`.  The attribute `deque` of
the source is the derived view `_data[_i:_j]`, given by `contents` below. -/
structure Deque where
  data : Int → Int
  qcap : Int
  bcap : Int
  prio : List Char
  s : Int
  i : Int
  j : Int

/-- The live contents `_data[_i:_j]`, i.e. the `deque` attribute / the
observable value of the deque. -/
def contents (d : Deque) : List Int :=
  (List.range (d.j - d.i).toNat).map (fun (k : Nat) => d.data (d.i + (k : Int)))

/-- The `size` property: `self._j - self._i`. -/
def Deque.size (d : Deque) : Int := d.j - d.i

/-- Functional update for a single buffer write `a[idx] = v`. -/
def update1 (f : Int → Int) (idx v : Int) : Int → Int :=
  fun k => if k = idx then v else f k

/-- Model of `a[dLo:dHi] = a[sLo : sLo + (dHi - dLo)]`: positions in
`[dLo, dHi)` read the old buffer shifted by `sLo - dLo`; others unchanged.
(numpy copies the source range before writing when the ranges overlap.) -/
def sliceCopy (f : Int → Int) (dLo dHi sLo : Int) : Int → Int :=
  fun k => if dLo ≤ k ∧ k < dHi then f (sLo + (k - dLo)) else f k

/-- Model of `a[lo : lo + len(vs)] = vs` for a concrete value list `vs`. -/
def sliceWriteList (f : Int → Int) (lo : Int) (vs : List Int) : Int → Int :=
  fun k => if lo ≤ k ∧ k < lo + (vs.length : Int) then vs.getD (k - lo).toNat 0 else f k

/-- Errors `__init__` can raise: `ValueError` from the invalid-priority
branch, `IndexError` from `priority[0]` on an empty stripped string. -/
inductive InitError where
  | indexError
  | valueError
deriving DecidableEq

/-- `_next_power_of_2(x)` (bit-smear and increment).  For `x ≥ 2` the source
operates on the positive int `x - 1`, so the smears are computed on `Nat`
(two's complement never enters for nonnegative Python ints). -/
def _next_power_of_2 (x : Int) : Int :=
  if x < 2 then 2
  else
    let y : Nat := (x - 1).toNat
    let y := y ||| (y >>> 1)
    let y := y ||| (y >>> 2)
    let y := y ||| (y >>> 4)
    let y := y ||| (y >>> 8)
    let y := y ||| (y >>> 16)
    let y := y ||| (y >>> 32)
    (y : Int) + 1

/-- The loop `while buffer_padding - requested < 8: buffer_padding <<= 1`
(doubling, since Python ints never overflow).  The source loop diverges if
`buffer_padding ≤ 0`; `_next_power_of_2` always returns `≥ 2`, so the extra
`0 < bp` guard (which makes the recursion terminate) never changes the
result on reachable inputs. -/
def growLoop (requested bp : Int) : Int :=
  if h : bp - requested < 8 ∧ 0 < bp then growLoop requested (2 * bp) else bp
termination_by (requested + 8 - bp).toNat
decreasing_by
  simp only [Int.toNat_lt_toNat, Int.lt_toNat] at *
  omega

/-- The loop `while buffer_padding - requested > _MAX_AUTO_BUFFER:
buffer_padding -= 128`, with `_MAX_AUTO_BUFFER = 2**11 = 2048`. -/
def shrinkLoop (requested bp : Int) : Int :=
  if h : bp - requested > 2048 then shrinkLoop requested (bp - 128) else bp
termination_by (bp - requested).toNat
decreasing_by
  simp only [Int.toNat_lt_toNat, Int.lt_toNat] at *
  omega

/-- `_get_buffer_size(size, buffer_padding)`. -/
def _get_buffer_size (size : Int) (buffer_padding : Option Int) : Int :=
  match buffer_padding with
  | none =>
      if size < 4 then 32
      else
        let requested := 2 * size
        let bp := _next_power_of_2 requested
        let bp := if bp = requested then 2 * bp else bp
        shrinkLoop requested (growLoop requested bp)
  | some p =>
      let requested := 2 * p + size
      if size < 4 ∧ requested < 8 then 8
      else shrinkLoop requested (growLoop requested (_next_power_of_2 requested))

/-- Python `str.strip()` (ASCII whitespace). -/
def pyStrip (s : List Char) : List Char :=
  ((s.dropWhile Char.isWhitespace).reverse.dropWhile Char.isWhitespace).reverse

/-- Python `str.lower()` (ASCII). -/
def pyLower (s : List Char) : List Char := s.map Char.toLower

/-- `priority.strip().lower()` as computed at the top of `__init__`. -/
def normPriority (priority : List Char) : List Char := pyLower (pyStrip priority)

/-- The clamp `if maxsize < 1: maxsize = 0` at the top of `__init__`. -/
def clampMaxsize (maxsize : Int) : Int := if maxsize < 1 then 0 else maxsize

/-- The `_bcap` chosen by `__init__`:
`_get_buffer_size(maxsize, buffer_padding)` unless `_force_buffer_size`
is given, in which case `max(maxsize, _force_buffer_size)`. -/
def initBcap (maxsize : Int) (buffer_padding _force_buffer_size : Option Int) : Int :=
  match _force_buffer_size with
  | none => _get_buffer_size maxsize buffer_padding
  | some f => max maxsize f

/-- The anchor computation of the soft "right" branch (lines 250-252 of the
source): `self._s = left_pad // 2; if self._s == 0 and pad > 2: self._s = 1`,
with `left_pad = pad // 2`. -/
def anchorRightSoft (pad : Int) : Int :=
  if pad / 2 / 2 = 0 ∧ pad > 2 then 1 else pad / 2 / 2

/-- The anchor computation of the soft "left" branch (lines 257-261):
`self._s = (3 * pad) // 4; if self._s > pad: self._s = pad;
if self._s == pad and pad > 2: self._s = pad - 1`. -/
def anchorLeftSoft (pad : Int) : Int :=
  if (if 3 * pad / 4 > pad then pad else 3 * pad / 4) = pad ∧ pad > 2 then pad - 1
  else if 3 * pad / 4 > pad then pad else 3 * pad / 4

/-- `pad = self._bcap - self._qcap` as computed in `__init__`. -/
def initPad (maxsize : Int) (buffer_padding _force_buffer_size : Option Int) : Int :=
  initBcap (clampMaxsize maxsize) buffer_padding _force_buffer_size - clampMaxsize maxsize

/-- `self._priority = p + "o" if "o" in priority else p` (line 235). -/
def initPrio (priority : List Char) (p : Char) : List Char :=
  if 'o' ∈ normPriority priority then [p, 'o'] else [p]

/-- Shared tail of `__init__` once `_s` and `_priority` are fixed: sets
`_i = _s`, `_j = _i` (no fill) or `_j = _i + _qcap` with the buffer filled
(scalar broadcast fill), over a fresh `np.empty` buffer. -/
def mkState (qcap bcap s : Int) (prio : List Char) (fill : Option Int) : Deque :=
  { data := match fill with
      | none => fun _ => 0
      | some v => sliceWriteList (fun _ => 0) s (List.replicate qcap.toNat v)
    qcap := qcap
    bcap := bcap
    prio := prio
    s := s
    i := s
    j := match fill with
      | none => s
      | some _ => s + qcap }

/-- `mkState` with `_qcap` and `_bcap` as `__init__` computes them. -/
def mkInit (maxsize : Int) (buffer_padding _force_buffer_size : Option Int)
    (s : Int) (prio : List Char) (fill : Option Int) : Deque :=
  mkState (clampMaxsize maxsize)
    (initBcap (clampMaxsize maxsize) buffer_padding _force_buffer_size) s prio fill

/-- `NumpyDeque.__init__(maxsize, fill, dtype, buffer_padding, priority,
_force_buffer_size)`.  The dtype-inference block only chooses the numpy
element type and is omitted (elements are modelled as integers). -/
def NumpyDeque_new (maxsize : Int) (fill : Option Int) (buffer_padding : Option Int)
    (priority : List Char) (_force_buffer_size : Option Int) : Except InitError Deque :=
  match normPriority priority with
  | [] => Except.error InitError.indexError
  | p :: _ =>
    if initPad maxsize buffer_padding _force_buffer_size < 2 then
      Except.ok (mkInit maxsize buffer_padding _force_buffer_size 0 ['r', 'o'] fill)
    else if p = 'e' then
      Except.ok (mkInit maxsize buffer_padding _force_buffer_size
        (initPad maxsize buffer_padding _force_buffer_size / 2) (initPrio priority p) fill)
    else if p = 'r' then
      Except.ok (mkInit maxsize buffer_padding _force_buffer_size
        (if 'o' ∈ normPriority priority then 0
         else anchorRightSoft (initPad maxsize buffer_padding _force_buffer_size))
        (initPrio priority p) fill)
    else if p = 'l' then
      Except.ok (mkInit maxsize buffer_padding _force_buffer_size
        (if 'o' ∈ normPriority priority then initPad maxsize buffer_padding _force_buffer_size
         else anchorLeftSoft (initPad maxsize buffer_padding _force_buffer_size))
        (initPrio priority p) fill)
    else Except.error InitError.valueError

/-- `NumpyDeque.array(object, maxsize, dtype, buffer_padding, priority,
_force_buffer_size)` for an array-like `object` with a length (the branches
for scalars and for `NumpyDeque` inputs are not exercised by the claims:
`copy` passes the plain ndarray `self.deque` and an explicit
`_force_buffer_size`). -/
def NumpyDeque_array (object : List Int) (maxsize : Option Int)
    (buffer_padding : Option Int) (priority : List Char)
    (_force_buffer_size : Option Int) : Except InitError Deque :=
  match NumpyDeque_new
      (match maxsize with
        | none => (object.length : Int)
        | some m => max (object.length : Int) m)
      none buffer_padding priority _force_buffer_size with
  | Except.error e => Except.error e
  | Except.ok ob =>
      Except.ok { ob with
        i := ob.s
        j := ob.s + (object.length : Int)
        data := sliceWriteList ob.data ob.s object }

/-- `_shift_buffer`.  The `else` branch of the source raises `RuntimeError`
before any mutation; it is modelled as the identity (no state reached
through the public operations ever has `_i < -1`).  The slice assignment
`self._data[s:j] = self._data[i:self._j]` is modelled as if it completes;
it does complete, and agrees with `sliceCopy` cell for cell, whenever its
bounds are nonnegative with equal source and destination lengths — true in
every state reachable with `maxsize ≥ 1`.  In the `maxsize = 0` corner the
real assignment can raise instead (Python wraps a negative stop, numpy
rejects the length mismatch): `shiftBufferRaises` below states exactly
when, and `putObservedState` gives the state `put` then leaves behind. -/
def _shift_buffer (d : Deque) : Deque :=
  if d.i = -1 then
    { d with data := sliceCopy d.data (d.s + 1) (d.s + 1 + d.j) 0
             i := d.s
             j := d.s + 1 + d.j }
  else if 0 ≤ d.i then
    { d with data := sliceCopy d.data d.s (d.s + d.j - d.i) d.i
             i := d.s
             j := d.s + d.j - d.i }
  else d

/-- Python slice-endpoint resolution for a length-`n` array: a negative
index is first shifted by `+ n`, then the result is clamped into
`[0, n]`. -/
def pySliceIdx (n idx : Int) : Int :=
  max 0 (min n (if idx < 0 then idx + n else idx))

/-- The number of cells the Python slice `a[lo:hi]` denotes on a length-`n`
array. -/
def pySliceLen (n lo hi : Int) : Int :=
  max 0 (pySliceIdx n hi - pySliceIdx n lo)

/-- Whether the call `self._shift_buffer()` raises on state `d`: numpy
refuses the slice assignment `self._data[s:j] = self._data[i:self._j]`
exactly when the Python-resolved destination and source lengths differ and
the source length is not 1 (a length-1 source would broadcast); the
`_i < -1` branch raises `RuntimeError` before the assignment.  In either
case the raise happens before line 949, so `_data`, `_i` and `_j` keep the
values they had at the call. -/
def shiftBufferRaises (d : Deque) : Bool :=
  if d.i = -1 then
    pySliceLen d.bcap (d.s + 1) (d.s + 1 + d.j) != pySliceLen d.bcap 0 d.j &&
    pySliceLen d.bcap 0 d.j != 1
  else if 0 ≤ d.i then
    pySliceLen d.bcap d.s (d.s + d.j - d.i) != pySliceLen d.bcap d.i d.j &&
    pySliceLen d.bcap d.i d.j != 1
  else true

/-- Line 387-388 of `put`: `if self._j - self._i == self._qcap: self._i += 1`. -/
def putEvict (d : Deque) : Deque :=
  if d.j - d.i = d.qcap then { d with i := d.i + 1 } else d

/-- Line 390-391 of `put` (also used by `putter`):
`if self._j == self._bcap: self._shift_buffer()`. -/
def shiftIfRightFull (d : Deque) : Deque :=
  if d.j = d.bcap then _shift_buffer d else d

/-- Lines 393-394 of `put`: `self._data[self._j] = value; self._j += 1`. -/
def putWrite (d : Deque) (value : Int) : Deque :=
  { d with data := update1 d.data d.j value, j := d.j + 1 }

/-- `put(value)`. -/
def put (d : Deque) (value : Int) : Deque :=
  putWrite (shiftIfRightFull (putEvict d)) value

/-- The state `put(value)` leaves behind, together with whether it raised:
line 387-388 (the eviction) always executes; if line 390-391 then calls a
raising `_shift_buffer`, the exception propagates and lines 393-394 never
run, so the object keeps the evicted cursors; otherwise `put` completes as
modelled. -/
def putObservedState (d : Deque) (value : Int) : Deque × Bool :=
  if (putEvict d).j = (putEvict d).bcap ∧ shiftBufferRaises (putEvict d) = true then
    (putEvict d, true)
  else (put d value, false)

/-- Fold `putObservedState` over a value list, halting at the first raise
(the Python exception propagates out of `put`; the deque object keeps the
state it had at the raise). -/
def runPutsObserved (d : Deque) (vs : List Int) : Deque × Bool :=
  vs.foldl (fun st v => if st.2 = true then st else putObservedState st.1 v) (d, false)

/-- Lines 406-407 of `putleft`: `if self._j - self._i == self._qcap: self._j -= 1`. -/
def putleftEvict (d : Deque) : Deque :=
  if d.j - d.i = d.qcap then { d with j := d.j - 1 } else d

/-- Lines 409-411 of `putleft`: `self._i -= 1; if self._i == -1: self._shift_buffer()`. -/
def putleftDec (d : Deque) : Deque :=
  if d.i - 1 = -1 then _shift_buffer { d with i := d.i - 1 } else { d with i := d.i - 1 }

/-- Line 413 of `putleft`: `self._data[self._i] = value`. -/
def putleftWrite (d : Deque) (value : Int) : Deque :=
  { d with data := update1 d.data d.i value }

/-- `putleft(value)`. -/
def putleft (d : Deque) (value : Int) : Deque :=
  putleftWrite (putleftDec (putleftEvict d)) value

/-- Lines 440-445 of `putter`, the full-overwrite fast path
(`dim >= self._qcap`): reset the window to `[_s, _s + _qcap)` and write
`values[dim - self._qcap :]`. -/
def putterOverwrite (d : Deque) (values : List Int) : Deque :=
  { d with data := sliceWriteList d.data d.s
             (values.drop ((values.length : Int) - d.qcap).toNat)
           i := d.s
           j := d.s + d.qcap }

/-- Lines 447-449 of `putter`: `new_size = self._j - self._i + dim;
if new_size > self._qcap: self._i += new_size - self._qcap`. -/
def putterEvict (d : Deque) (dim : Int) : Deque :=
  if d.j - d.i + dim > d.qcap then { d with i := d.i + (d.j - d.i + dim - d.qcap) } else d

/-- Lines 451-452 of `putter`: `if self._j + dim >= self._bcap: self._shift_buffer()`. -/
def putterShift (d : Deque) (dim : Int) : Deque :=
  if d.j + dim ≥ d.bcap then _shift_buffer d else d

/-- Lines 454-455 of `putter`: `self._data[self._j : self._j + dim] = values;
self._j += dim`. -/
def putterWrite (d : Deque) (values : List Int) : Deque :=
  { d with data := sliceWriteList d.data d.j values, j := d.j + (values.length : Int) }

/-- `putter(values)` for a sized `values` (the `len(values)` branch; for an
unsized iterator the source literally folds `put`, and for a scalar it
calls `put` once). -/
def putter (d : Deque) (values : List Int) : Deque :=
  if (values.length : Int) ≥ d.qcap then putterOverwrite d values
  else putterWrite (putterShift (putterEvict d (values.length : Int)) (values.length : Int)) values

/-- Lines 481-485 of `putterleft`, the full-overwrite fast path:
reset the window to `[_s, _s + _qcap)` and write `values[::-1][: self._qcap]`. -/
def putterleftOverwrite (d : Deque) (values : List Int) : Deque :=
  { d with data := sliceWriteList d.data d.s (values.reverse.take d.qcap.toNat)
           i := d.s
           j := d.s + d.qcap }

/-- Lines 499-501 of `putterleft`: `new_size = self._j - self._i + dim;
if new_size > self._qcap: self._j -= new_size - self._qcap`. -/
def putterleftEvict (d : Deque) (dim : Int) : Deque :=
  if d.j - d.i + dim > d.qcap then { d with j := d.j - (d.j - d.i + dim - d.qcap) } else d

/-- Lines 503-509 of `putterleft`: if `self._i - dim < 0`, relocate the
window to `[_s + dim, _s + dim + size)` and set `_i = _s`; otherwise
`self._i -= dim`. -/
def putterleftShift (d : Deque) (dim : Int) : Deque :=
  if d.i - dim < 0 then
    { d with data := sliceCopy d.data (d.s + dim) (d.s + dim + d.j - d.i) d.i
             i := d.s
             j := d.s + dim + d.j - d.i }
  else { d with i := d.i - dim }

/-- Line 511 of `putterleft`:
`self._data[self._i : self._i + dim] = values[::-1]`. -/
def putterleftWrite (d : Deque) (values : List Int) : Deque :=
  { d with data := sliceWriteList d.data d.i values.reverse }

/-- `putterleft(values)` for a sized `values`. -/
def putterleft (d : Deque) (values : List Int) : Deque :=
  if (values.length : Int) ≥ d.qcap then putterleftOverwrite d values
  else putterleftWrite
    (putterleftShift (putterleftEvict d (values.length : Int)) (values.length : Int)) values

/-- `pop()`: returns `None` on an empty deque, else decrements `_j` and
returns `self._data[self._j]` (the removed right value), with the post
state. -/
def pop (d : Deque) : Option Int × Deque :=
  if d.i = d.j then (none, d)
  else (some (d.data (d.j - 1)), { d with j := d.j - 1 })

/-- `popleft()`: returns `None` on an empty deque, else increments `_i` and
returns `self._data[self._i - 1]` (the removed left value). -/
def popleft (d : Deque) : Option Int × Deque :=
  if d.i = d.j then (none, d)
  else (some (d.data d.i), { d with i := d.i + 1 })

/-- Lines 572-577 of `drop`: the shift direction, `self._priority` when it
contains "o", else whichever side of `index` is shorter. -/
def dropShiftDir (d : Deque) (index : Int) : List Char :=
  if 'o' ∈ d.prio then d.prio
  else if d.j - index ≤ index - d.i then ['r', 'o'] else ['l', 'o']

/-- Lines 564-587 of `drop`, after `index` has been translated to a buffer
index: delegate to `pop`/`popleft` at the edges, else remove `_data[index]`
by closing the gap in the chosen direction. -/
def dropAt (d : Deque) (index : Int) : Option Int × Deque :=
  if index + 1 ≥ d.j then pop d
  else if index ≤ d.i then popleft d
  else if dropShiftDir d index = ['r', 'o'] then
    (some (d.data index),
     { d with data := sliceCopy d.data index (d.j - 1) (index + 1), j := d.j - 1 })
  else
    (some (d.data index),
     { d with data := sliceCopy d.data (d.i + 1) (index + 1) d.i, i := d.i + 1 })

/-- `drop(index)`: `if index < 0: index = self._qcap + index`, then
`index = self._i + index`, then remove at that buffer index. -/
def Deque.drop (d : Deque) (index : Int) : Option Int × Deque :=
  dropAt d (d.i + (if index < 0 then d.qcap + index else index))

/-- `copy()`: `NumpyDeque.array(self.deque, None, self.dtype, None,
self._priority, _force_buffer_size=self._bcap)`. -/
def Deque.copy (d : Deque) : Except InitError Deque :=
  NumpyDeque_array (contents d) none none d.prio (some d.bcap)

/-- One public mutating operation, for stating whole-trace properties. -/
inductive DOp where
  | put (v : Int)
  | putleft (v : Int)
  | putter (vs : List Int)
  | putterleft (vs : List Int)
  | drop (index : Int)
  | pop
  | popleft

/-- Apply one operation (discarding the returned value, which does not
affect the state). -/
def applyOp (d : Deque) : DOp → Deque
  | DOp.put v => put d v
  | DOp.putleft v => putleft d v
  | DOp.putter vs => putter d vs
  | DOp.putterleft vs => putterleft d vs
  | DOp.drop index => (d.drop index).2
  | DOp.pop => (pop d).2
  | DOp.popleft => (popleft d).2

/-- Apply a finite sequence of operations left to right. -/
def runOps (d : Deque) (ops : List DOp) : Deque := ops.foldl applyOp d

/-- The window/state invariant of the claims: cursors in range and the size
bounded by maxsize, plus the structural facts about the anchor that every
operation relies on (`0 ≤ _s` and `_s + _qcap ≤ _bcap`, `0 ≤ _qcap`). -/
def DequeInv (d : Deque) : Prop :=
  0 ≤ d.i ∧ d.i ≤ d.j ∧ d.j ≤ d.bcap ∧ d.j - d.i ≤ d.qcap ∧
  0 ≤ d.s ∧ d.s + d.qcap ≤ d.bcap ∧ 0 ≤ d.qcap

instance (d : Deque) : Decidable (DequeInv d) := by unfold DequeInv; infer_instance

/-- The five recognized priority strings of the documentation. -/
def validPriorities : List (List Char) :=
  ["equal".toList, "right".toList, "left".toList, "rightonly".toList, "leftonly".toList]

/-- The last `n` elements of a list. -/
def lastN (n : Nat) (l : List α) : List α := l.drop (l.length - n)

/-! Window toolkit: `window f lo hi` is the value list a numpy view
`f[lo:hi]` denotes; `contents d = window d.data d.i d.j`. -/

/-- The list of values of `f` on `[lo, hi)`. -/
def window (f : Int → Int) (lo hi : Int) : List Int :=
  (List.range (hi - lo).toNat).map (fun (k : Nat) => f (lo + (k : Int)))

theorem contents_eq_window (d : Deque) : contents d = window d.data d.i d.j := rfl

theorem window_length (f : Int → Int) (lo hi : Int) :
    (window f lo hi).length = (hi - lo).toNat := by
  simp [window]

theorem window_empty (f : Int → Int) {lo hi : Int} (h : hi ≤ lo) :
    window f lo hi = [] := by
  simp [window, Int.toNat_of_nonpos (by omega : hi - lo ≤ 0)]

theorem window_congr {f g : Int → Int} {lo hi : Int}
    (h : ∀ x, lo ≤ x → x < hi → f x = g x) :
    window f lo hi = window g lo hi := by
  unfold window
  refine List.map_congr_left (fun k hk => ?_)
  have hk' : (k : Int) < hi - lo := by
    have := List.mem_range.mp hk
    omega
  exact h (lo + (k : Int)) (by omega) (by omega)

theorem window_split (f : Int → Int) {lo mid hi : Int}
    (h1 : lo ≤ mid) (h2 : mid ≤ hi) :
    window f lo hi = window f lo mid ++ window f mid hi := by
  unfold window
  have hn : (hi - lo).toNat = (mid - lo).toNat + (hi - mid).toNat := by omega
  rw [hn, List.range_add, List.map_append, List.map_map]
  congr 1
  refine List.map_congr_left (fun k hk => ?_)
  simp only [Function.comp_apply]
  congr 1
  have : ((mid - lo).toNat : Int) = mid - lo := by omega
  push_cast
  omega

theorem window_singleton (f : Int → Int) (lo : Int) :
    window f lo (lo + 1) = [f lo] := by
  have : (lo + 1 - lo).toNat = 1 := by omega
  simp [window, this, List.range_succ]

theorem window_sliceWriteList (f : Int → Int) (lo : Int) (vs : List Int) :
    window (sliceWriteList f lo vs) lo (lo + (vs.length : Int)) = vs := by
  unfold window
  have hn : (lo + (vs.length : Int) - lo).toNat = vs.length := by omega
  rw [hn]
  apply List.ext_getElem
  · simp
  · intro n h1 h2
    simp only [List.getElem_map, List.getElem_range]
    unfold sliceWriteList
    rw [if_pos (by constructor <;> omega)]
    have hx : (lo + (n : Int) - lo).toNat = n := by omega
    rw [hx]
    exact List.getD_eq_getElem vs 0 h2

theorem window_sliceWriteList_out (f : Int → Int) (lo : Int) (vs : List Int)
    {a b : Int} (h : b ≤ lo ∨ lo + (vs.length : Int) ≤ a) :
    window (sliceWriteList f lo vs) a b = window f a b := by
  refine window_congr (fun x hx1 hx2 => ?_)
  unfold sliceWriteList
  rw [if_neg (by omega)]

theorem window_update1_out (f : Int → Int) (idx v : Int)
    {a b : Int} (h : idx < a ∨ b ≤ idx) :
    window (update1 f idx v) a b = window f a b := by
  refine window_congr (fun x hx1 hx2 => ?_)
  unfold update1
  rw [if_neg (by omega)]

theorem window_sliceCopy (f : Int → Int) (dLo dHi sLo : Int) :
    window (sliceCopy f dLo dHi sLo) dLo dHi = window f sLo (sLo + (dHi - dLo)) := by
  unfold window
  have hn : (sLo + (dHi - dLo) - sLo) = dHi - dLo := by omega
  rw [hn]
  refine List.map_congr_left (fun k hk => ?_)
  have hk' : (k : Int) < dHi - dLo := by
    have := List.mem_range.mp hk
    omega
  unfold sliceCopy
  rw [if_pos (by constructor <;> omega)]
  congr 1
  omega

theorem window_sliceCopy_out (f : Int → Int) (dLo dHi sLo : Int)
    {a b : Int} (h : b ≤ dLo ∨ dHi ≤ a) :
    window (sliceCopy f dLo dHi sLo) a b = window f a b := by
  refine window_congr (fun x hx1 hx2 => ?_)
  unfold sliceCopy
  rw [if_neg (by omega)]

theorem window_drop_left (f : Int → Int) {lo lo' hi : Int} (h : lo ≤ lo') :
    window f lo' hi = (window f lo hi).drop (lo' - lo).toNat := by
  rcases le_or_lt lo' hi with hlt | hle
  · rw [window_split f h hlt, ← window_length f lo lo']
    rw [List.drop_left]
  · rw [window_empty f (by omega)]
    refine (List.drop_eq_nil_iff.mpr ?_).symm
    rw [window_length]
    omega

theorem window_take_right (f : Int → Int) {lo hi' hi : Int}
    (h1 : lo ≤ hi') (h2 : hi' ≤ hi) :
    window f lo hi' = (window f lo hi).take (hi' - lo).toNat := by
  rw [window_split f h1 h2, ← window_length f lo hi']
  rw [List.take_left]

theorem contents_addLeft (d : Deque) (m : Int) (hm : 0 ≤ m) :
    contents { d with i := d.i + m } = (contents d).drop m.toNat := by
  rw [contents_eq_window, contents_eq_window]
  have hx : (d.i + m - d.i).toNat = m.toNat := by omega
  have := @window_drop_left d.data d.i (d.i + m) d.j (show d.i ≤ d.i + m by omega)
  rw [hx] at this
  exact this

theorem contents_subRight (d : Deque) (m : Int) (hm : 0 ≤ m) (hge : d.i ≤ d.j - m) :
    contents { d with j := d.j - m } = (contents d).take (d.j - m - d.i).toNat := by
  rw [contents_eq_window, contents_eq_window]
  dsimp only
  exact window_take_right d.data hge (by omega)

theorem contents_append_at_j (e : Deque) (v : Int) (he : e.i ≤ e.j) :
    contents { e with data := update1 e.data e.j v, j := e.j + 1 } = contents e ++ [v] := by
  rw [contents_eq_window, contents_eq_window]
  dsimp only
  rw [window_split _ he (by omega : e.j ≤ e.j + 1)]
  congr 1
  · exact window_update1_out e.data e.j v (Or.inr le_rfl)
  · rw [window_singleton]
    unfold update1
    rw [if_pos rfl]

theorem dequeInv_put (d : Deque) (v : Int) (h : DequeInv d) : DequeInv (put d v) := by
  unfold DequeInv at *
  unfold put putWrite shiftIfRightFull putEvict _shift_buffer
  split_ifs <;> dsimp only at * <;> omega

theorem dequeInv_putleft (d : Deque) (v : Int) (h : DequeInv d) : DequeInv (putleft d v) := by
  unfold DequeInv at *
  unfold putleft putleftWrite putleftDec putleftEvict _shift_buffer
  split_ifs <;> dsimp only at * <;> omega

theorem dequeInv_putter (d : Deque) (vs : List Int) (h : DequeInv d) :
    DequeInv (putter d vs) := by
  unfold DequeInv at *
  unfold putter putterOverwrite putterWrite putterShift putterEvict _shift_buffer
  split_ifs <;> dsimp only at * <;> omega

theorem dequeInv_putterleft (d : Deque) (vs : List Int) (h : DequeInv d) :
    DequeInv (putterleft d vs) := by
  unfold DequeInv at *
  unfold putterleft putterleftOverwrite putterleftWrite putterleftShift putterleftEvict
  split_ifs <;> dsimp only at * <;> omega

theorem dequeInv_pop (d : Deque) (h : DequeInv d) : DequeInv (pop d).2 := by
  unfold DequeInv at *
  unfold pop
  split_ifs <;> dsimp only at * <;> omega

theorem dequeInv_popleft (d : Deque) (h : DequeInv d) : DequeInv (popleft d).2 := by
  unfold DequeInv at *
  unfold popleft
  split_ifs <;> dsimp only at * <;> omega

theorem dequeInv_drop (d : Deque) (index : Int) (h : DequeInv d) :
    DequeInv (d.drop index).2 := by
  unfold DequeInv at *
  unfold Deque.drop dropAt pop popleft
  split_ifs <;> dsimp only at * <;> omega

theorem dequeInv_applyOp (d : Deque) (op : DOp) (h : DequeInv d) :
    DequeInv (applyOp d op) := by
  cases op with
  | put v => exact dequeInv_put d v h
  | putleft v => exact dequeInv_putleft d v h
  | putter vs => exact dequeInv_putter d vs h
  | putterleft vs => exact dequeInv_putterleft d vs h
  | drop index => exact dequeInv_drop d index h
  | pop => exact dequeInv_pop d h
  | popleft => exact dequeInv_popleft d h

theorem dequeInv_runOps (d : Deque) (ops : List DOp) (h : DequeInv d) :
    DequeInv (runOps d ops) := by
  induction ops generalizing d with
  | nil => exact h
  | cons op rest ih => exact ih (applyOp d op) (dequeInv_applyOp d op h)

theorem npow2_pos (x : Int) : 1 ≤ _next_power_of_2 x := by
  unfold _next_power_of_2
  split_ifs
  · omega
  · dsimp only
    omega

theorem growLoop_ge (requested bp : Int) (h : 0 < bp) :
    requested + 8 ≤ growLoop requested bp := by
  unfold growLoop
  split_ifs with hc
  · exact growLoop_ge requested (2 * bp) (by omega)
  · omega
termination_by (requested + 8 - bp).toNat
decreasing_by omega

theorem shrinkLoop_ge (requested bp : Int) (h : requested + 8 ≤ bp) :
    requested + 8 ≤ shrinkLoop requested bp := by
  unfold shrinkLoop
  split_ifs with hc
  · exact shrinkLoop_ge requested (bp - 128) (by omega)
  · omega
termination_by (bp - requested).toNat
decreasing_by omega

theorem _get_buffer_size_ge (size : Int) (h : 0 ≤ size) :
    size ≤ _get_buffer_size size none := by
  unfold _get_buffer_size
  dsimp only
  have h1 : 1 ≤ _next_power_of_2 (2 * size) := npow2_pos _
  split_ifs with h4 h5
  · omega
  · have h3 := growLoop_ge (2 * size) (2 * _next_power_of_2 (2 * size)) (by omega)
    have h6 := shrinkLoop_ge (2 * size) _ h3
    omega
  · have h3 := growLoop_ge (2 * size) (_next_power_of_2 (2 * size)) (by omega)
    have h6 := shrinkLoop_ge (2 * size) _ h3
    omega

theorem dequeInv_mkState (qcap bcap s : Int) (prio : List Char) (fill : Option Int)
    (h0 : 0 ≤ qcap) (h1 : 0 ≤ s) (h2 : s + qcap ≤ bcap) :
    DequeInv (mkState qcap bcap s prio fill) := by
  unfold DequeInv mkState
  cases fill <;> dsimp only <;> omega

theorem dequeInv_mkInit (maxsize : Int) (bp force : Option Int) (s : Int)
    (prio : List Char) (fill : Option Int) (h1 : 0 ≤ s)
    (h2 : s + clampMaxsize maxsize ≤ initBcap (clampMaxsize maxsize) bp force) :
    DequeInv (mkInit maxsize bp force s prio fill) := by
  unfold mkInit
  refine dequeInv_mkState _ _ _ _ _ ?_ h1 h2
  unfold clampMaxsize
  split_ifs <;> omega

theorem dequeInv_new (maxsize : Int) (fill : Option Int) (priority : List Char) (d : Deque)
    (h : NumpyDeque_new maxsize fill none priority none = Except.ok d) : DequeInv d := by
  unfold NumpyDeque_new at h
  have hq : 0 ≤ clampMaxsize maxsize := by unfold clampMaxsize; split_ifs <;> omega
  have hb : clampMaxsize maxsize ≤ initBcap (clampMaxsize maxsize) none none := by
    unfold initBcap
    exact _get_buffer_size_ge _ hq
  have hpad : 0 ≤ initPad maxsize none none ∨ initPad maxsize none none < 2 := by
    unfold initPad
    omega
  cases hpr : normPriority priority with
  | nil =>
      rw [hpr] at h
      exact absurd h (by simp)
  | cons p t =>
      rw [hpr] at h
      dsimp only at h
      have hpadeq : initPad maxsize none none =
          initBcap (clampMaxsize maxsize) none none - clampMaxsize maxsize := rfl
      split_ifs at h
      all_goals first
        | (injection h with h
           subst h
           apply dequeInv_mkInit
           all_goals
             first
               | omega
               | (simp only [anchorRightSoft, anchorLeftSoft] at *
                  split_ifs at * <;> omega))
        | exact absurd h (by simp)

theorem shift_spec (d : Deque) (h : 0 ≤ d.i) :
    _shift_buffer d = { d with data := sliceCopy d.data d.s (d.s + d.j - d.i) d.i
                               i := d.s
                               j := d.s + d.j - d.i } := by
  unfold _shift_buffer
  rw [if_neg (by omega), if_pos h]

theorem shift_left_spec (d : Deque) (h : d.i = -1) :
    _shift_buffer d = { d with data := sliceCopy d.data (d.s + 1) (d.s + 1 + d.j) 0
                               i := d.s
                               j := d.s + 1 + d.j } := by
  unfold _shift_buffer
  rw [if_pos h]

theorem contents_shift (d : Deque) (h : 0 ≤ d.i) :
    contents (_shift_buffer d) = contents d := by
  rw [shift_spec d h, contents_eq_window, contents_eq_window]
  try dsimp only
  rcases le_or_lt d.i d.j with hij | hij
  · rw [window_sliceCopy]
    congr 1
    omega
  · rw [window_empty _ (by omega), window_empty _ (by omega)]

theorem lastN_of_le {l : List α} {n : Nat} (h : l.length ≤ n) : lastN n l = l := by
  unfold lastN
  rw [Nat.sub_eq_zero_of_le h, List.drop_zero]

theorem contents_putWrite (e : Deque) (v : Int) (he : e.i ≤ e.j) :
    contents (putWrite e v) = contents e ++ [v] := by
  unfold putWrite
  exact contents_append_at_j e v he

theorem contents_shiftWrite (e : Deque) (v : Int) (hie : 0 ≤ e.i) (hij : e.i ≤ e.j) :
    contents (putWrite (shiftIfRightFull e) v) = contents e ++ [v] := by
  have hC : contents (shiftIfRightFull e) = contents e := by
    unfold shiftIfRightFull
    split_ifs
    · exact contents_shift e hie
    · rfl
  have hij' : (shiftIfRightFull e).i ≤ (shiftIfRightFull e).j := by
    unfold shiftIfRightFull _shift_buffer
    split_ifs <;> (try dsimp only) <;> omega
  rw [contents_putWrite _ v hij', hC]

theorem contents_length (d : Deque) : (contents d).length = (d.j - d.i).toNat := by
  simp [contents]

theorem contents_put (d : Deque) (v : Int) (h : DequeInv d) :
    contents (put d v) = lastN d.qcap.toNat (contents d ++ [v]) := by
  obtain ⟨h1, h2, h3, h4, h5, h6, h7⟩ := h
  have hlen := contents_length d
  unfold put
  by_cases hq0 : d.qcap = 0
  · have hij : d.i = d.j := by omega
    have hRHS : lastN d.qcap.toNat (contents d ++ [v]) = [] := by
      unfold lastN
      rw [hq0]
      simp
    rw [hRHS, contents_eq_window]
    unfold putWrite shiftIfRightFull putEvict _shift_buffer
    split_ifs <;> dsimp only at * <;> exact window_empty _ (by omega)
  · by_cases hev : d.j - d.i = d.qcap
    · rw [show putEvict d = { d with i := d.i + 1 } from by
        unfold putEvict; rw [if_pos hev]]
      rw [contents_shiftWrite _ v (by dsimp only; omega) (by dsimp only; omega)]
      have hc1 := contents_addLeft d 1 (by omega)
      rw [hc1]
      unfold lastN
      rw [List.length_append, hlen]
      have hx : (d.j - d.i).toNat + [v].length - d.qcap.toNat = 1 := by
        simp only [List.length_singleton]
        omega
      rw [hx, List.drop_append_of_le_length (by rw [hlen]; omega)]
      norm_num
    · rw [show putEvict d = d from by unfold putEvict; rw [if_neg hev]]
      rw [contents_shiftWrite d v h1 h2]
      rw [lastN_of_le (by rw [List.length_append, hlen]; simp; omega)]

theorem contents_putleftWrite (e : Deque) (v : Int) (he : e.i < e.j) :
    contents (putleftWrite e v) = v :: window e.data (e.i + 1) e.j := by
  unfold putleftWrite
  rw [contents_eq_window]
  dsimp only
  rw [window_split _ (show e.i ≤ e.i + 1 by omega) (show e.i + 1 ≤ e.j by omega)]
  have hfst : window (update1 e.data e.i v) e.i (e.i + 1) = [v] := by
    rw [window_singleton]
    unfold update1
    rw [if_pos rfl]
  rw [hfst, window_update1_out _ _ _ (Or.inl (by omega))]
  rfl

theorem putleftDec_spec (e : Deque) (h0 : 0 ≤ e.i) (h2 : e.i ≤ e.j) :
    window (putleftDec e).data ((putleftDec e).i + 1) (putleftDec e).j = contents e ∧
    (putleftDec e).i < (putleftDec e).j := by
  unfold putleftDec
  split_ifs with hsh
  · rw [shift_left_spec { e with i := e.i - 1 } (by dsimp only; omega)]
    dsimp only
    constructor
    · rw [window_sliceCopy, contents_eq_window]
      congr 1 <;> omega
    · omega
  · dsimp only
    constructor
    · rw [contents_eq_window]
      congr 1
      omega
    · omega

theorem contents_putleft (d : Deque) (v : Int) (h : DequeInv d) :
    contents (putleft d v) = (v :: contents d).take d.qcap.toNat := by
  obtain ⟨h1, h2, h3, h4, h5, h6, h7⟩ := h
  have hlen := contents_length d
  unfold putleft
  by_cases hq0 : d.qcap = 0
  · have hij : d.i = d.j := by omega
    have hRHS : (v :: contents d).take d.qcap.toNat = [] := by
      rw [hq0]
      rfl
    rw [hRHS, contents_eq_window]
    unfold putleftWrite putleftDec putleftEvict _shift_buffer
    split_ifs <;> dsimp only at * <;> exact window_empty _ (by omega)
  · by_cases hev : d.j - d.i = d.qcap
    · rw [show putleftEvict d = { d with j := d.j - 1 } from by
        unfold putleftEvict; rw [if_pos hev]]
      obtain ⟨hw, hlt⟩ := putleftDec_spec { d with j := d.j - 1 }
        (by dsimp only; omega) (by dsimp only; omega)
      rw [contents_putleftWrite _ v hlt, hw]
      have hc1 := contents_subRight d 1 (by omega) (by omega)
      rw [hc1]
      rw [show d.qcap.toNat = (d.qcap.toNat - 1) + 1 from by omega, List.take_succ_cons]
      congr 2
      omega
    · rw [show putleftEvict d = d from by unfold putleftEvict; rw [if_neg hev]]
      obtain ⟨hw, hlt⟩ := putleftDec_spec d h1 h2
      rw [contents_putleftWrite _ v hlt, hw]
      rw [List.take_of_length_le (by rw [List.length_cons, hlen]; omega)]

theorem contents_putterWrite (e : Deque) (vs : List Int) (he : e.i ≤ e.j) :
    contents (putterWrite e vs) = contents e ++ vs := by
  unfold putterWrite
  rw [contents_eq_window]
  dsimp only
  rw [window_split _ (show e.i ≤ e.j by omega)
    (show e.j ≤ e.j + (vs.length : Int) by omega)]
  rw [window_sliceWriteList_out _ _ _ (Or.inl le_rfl)]
  rw [window_sliceWriteList]
  rfl

theorem contents_putterShift (e : Deque) (dim : Int) (hie : 0 ≤ e.i) :
    contents (putterShift e dim) = contents e := by
  unfold putterShift
  split_ifs
  · exact contents_shift e hie
  · rfl

theorem putterShift_le (e : Deque) (dim : Int) (h2 : e.i ≤ e.j) :
    (putterShift e dim).i ≤ (putterShift e dim).j := by
  unfold putterShift _shift_buffer
  split_ifs <;> (try dsimp only) <;> omega

theorem contents_putter (d : Deque) (vs : List Int) (h : DequeInv d) :
    contents (putter d vs) = lastN d.qcap.toNat (contents d ++ vs) := by
  obtain ⟨h1, h2, h3, h4, h5, h6, h7⟩ := h
  have hlen := contents_length d
  unfold putter
  by_cases hov : (vs.length : Int) ≥ d.qcap
  · rw [if_pos hov]
    unfold putterOverwrite
    rw [contents_eq_window]
    dsimp only
    have hl : ((vs.drop ((vs.length : Int) - d.qcap).toNat).length : Int) = d.qcap := by
      rw [List.length_drop]
      omega
    rw [show d.s + d.qcap
        = d.s + ((vs.drop ((vs.length : Int) - d.qcap).toNat).length : Int) from by omega]
    rw [window_sliceWriteList]
    unfold lastN
    rw [List.length_append, hlen]
    rw [show (d.j - d.i).toNat + vs.length - d.qcap.toNat
        = (contents d).length + ((vs.length : Int) - d.qcap).toNat from by rw [hlen]; omega]
    rw [List.drop_append]
  · rw [if_neg hov]
    by_cases hev : d.j - d.i + (vs.length : Int) > d.qcap
    · rw [show putterEvict d (vs.length : Int)
          = { d with i := d.i + (d.j - d.i + (vs.length : Int) - d.qcap) } from by
        unfold putterEvict; rw [if_pos hev]]
      rw [contents_putterWrite _ _
        (putterShift_le _ _ (by dsimp only; omega))]
      rw [contents_putterShift _ _ (by dsimp only; omega)]
      rw [contents_addLeft d _ (by omega)]
      unfold lastN
      rw [List.length_append, hlen]
      rw [show (d.j - d.i).toNat + vs.length - d.qcap.toNat
          = (d.j - d.i + (vs.length : Int) - d.qcap).toNat from by omega]
      rw [List.drop_append_of_le_length (by rw [hlen]; omega)]
    · rw [show putterEvict d (vs.length : Int) = d from by
        unfold putterEvict; rw [if_neg hev]]
      rw [contents_putterWrite _ _ (putterShift_le _ _ h2)]
      rw [contents_putterShift _ _ h1]
      rw [lastN_of_le (by rw [List.length_append, hlen]; omega)]

theorem contents_putterleftWrite (e : Deque) (vs : List Int)
    (hij : e.i + (vs.reverse.length : Int) ≤ e.j) :
    contents (putterleftWrite e vs) =
      vs.reverse ++ window e.data (e.i + (vs.reverse.length : Int)) e.j := by
  unfold putterleftWrite
  rw [contents_eq_window]
  dsimp only
  rw [window_split _ (show e.i ≤ e.i + (vs.reverse.length : Int) by omega) hij]
  rw [window_sliceWriteList]
  rw [window_sliceWriteList_out _ _ _ (Or.inr le_rfl)]

theorem putterleftShift_spec (e : Deque) (dim : Int) (h0 : 0 ≤ e.i) (h2 : e.i ≤ e.j) :
    window (putterleftShift e dim).data ((putterleftShift e dim).i + dim)
      (putterleftShift e dim).j = contents e ∧
    (putterleftShift e dim).i + dim ≤ (putterleftShift e dim).j := by
  unfold putterleftShift
  split_ifs with hsh
  · dsimp only
    constructor
    · rw [window_sliceCopy, contents_eq_window]
      congr 1
      omega
    · omega
  · dsimp only
    constructor
    · rw [contents_eq_window]
      congr 1
      omega
    · omega

theorem contents_putterleft (d : Deque) (vs : List Int) (h : DequeInv d) :
    contents (putterleft d vs) = (vs.reverse ++ contents d).take d.qcap.toNat := by
  obtain ⟨h1, h2, h3, h4, h5, h6, h7⟩ := h
  have hlen := contents_length d
  unfold putterleft
  by_cases hov : (vs.length : Int) ≥ d.qcap
  · rw [if_pos hov]
    unfold putterleftOverwrite
    rw [contents_eq_window]
    dsimp only
    have hl : ((vs.reverse.take d.qcap.toNat).length : Int) = d.qcap := by
      rw [List.length_take, List.length_reverse]
      omega
    rw [show d.s + d.qcap
        = d.s + ((vs.reverse.take d.qcap.toNat).length : Int) from by omega]
    rw [window_sliceWriteList]
    rw [List.take_append_of_le_length (by rw [List.length_reverse]; omega)]
  · rw [if_neg hov]
    by_cases hev : d.j - d.i + (vs.length : Int) > d.qcap
    · rw [show putterleftEvict d (vs.length : Int)
          = { d with j := d.j - (d.j - d.i + (vs.length : Int) - d.qcap) } from by
        unfold putterleftEvict; rw [if_pos hev]]
      obtain ⟨hw, hle⟩ := putterleftShift_spec
        { d with j := d.j - (d.j - d.i + (vs.length : Int) - d.qcap) } (vs.length : Int)
        (by dsimp only; omega) (by dsimp only; omega)
      rw [contents_putterleftWrite _ _ (by rw [List.length_reverse]; exact hle)]
      rw [show ((vs.reverse.length : Nat) : Int) = (vs.length : Int) from by
        rw [List.length_reverse]]
      rw [hw]
      rw [contents_subRight d _ (by omega) (by omega)]
      rw [List.take_append_eq_append_take]
      congr 1
      · exact (List.take_of_length_le (by rw [List.length_reverse]; omega)).symm
      · congr 1
        rw [List.length_reverse]
        omega
    · rw [show putterleftEvict d (vs.length : Int) = d from by
        unfold putterleftEvict; rw [if_neg hev]]
      obtain ⟨hw, hle⟩ := putterleftShift_spec d (vs.length : Int) h1 h2
      rw [contents_putterleftWrite _ _ (by rw [List.length_reverse]; exact hle)]
      rw [show ((vs.reverse.length : Nat) : Int) = (vs.length : Int) from by
        rw [List.length_reverse]]
      rw [hw]
      rw [List.take_of_length_le
        (by rw [List.length_append, List.length_reverse, hlen]; omega)]

theorem lastN_append_absorb (q : Nat) (a b : List Int) :
    lastN q (lastN q a ++ b) = lastN q (a ++ b) := by
  unfold lastN
  rcases le_or_lt a.length q with hq | hq
  · rw [Nat.sub_eq_zero_of_le hq, List.drop_zero]
  · rw [List.drop_append_eq_append_drop, List.drop_append_eq_append_drop,
      List.drop_drop]
    simp only [List.length_append, List.length_drop]
    congr 1
    · congr 1
      omega
    · congr 1
      omega

theorem contents_foldl_put (d : Deque) (vs : List Int) (h : DequeInv d) :
    contents (List.foldl put d vs) = lastN d.qcap.toNat (contents d ++ vs) := by
  induction vs generalizing d with
  | nil =>
      rw [List.foldl_nil, List.append_nil]
      refine (lastN_of_le ?_).symm
      rw [contents_length d]
      obtain ⟨_, _, _, h4, _, _, _⟩ := h
      omega
  | cons v rest ih =>
      rw [List.foldl_cons]
      rw [ih (put d v) (dequeInv_put d v h)]
      rw [contents_put d v h]
      rw [show (put d v).qcap = d.qcap from by
        unfold put putWrite shiftIfRightFull putEvict _shift_buffer
        split_ifs <;> rfl]
      rw [lastN_append_absorb]
      congr 1
      simp

theorem drop_neg_one_eq_pop (d : Deque) (h : DequeInv d) : d.drop (-1) = pop d := by
  obtain ⟨h1, h2, h3, h4, h5, h6, h7⟩ := h
  unfold Deque.drop
  rw [if_pos (show (-1 : Int) < 0 by omega)]
  unfold dropAt
  rw [if_pos (by omega)]

theorem drop_zero_popleft (d : Deque) (h : DequeInv d) :
    (d.drop 0).1 = (popleft d).1 ∧ contents (d.drop 0).2 = contents (popleft d).2 := by
  obtain ⟨h1, h2, h3, h4, h5, h6, h7⟩ := h
  unfold Deque.drop
  rw [if_neg (by omega), add_zero]
  unfold dropAt
  by_cases hsz : d.i + 1 ≥ d.j
  · rw [if_pos hsz]
    unfold pop popleft
    by_cases h0 : d.i = d.j
    · rw [if_pos h0, if_pos h0]
      exact ⟨rfl, rfl⟩
    · rw [if_neg h0, if_neg h0]
      dsimp only
      constructor
      · congr 2
        omega
      · rw [contents_eq_window, contents_eq_window]
        dsimp only
        rw [window_empty _ (by omega), window_empty _ (by omega)]
  · rw [if_neg hsz, if_pos (le_refl d.i)]
    exact ⟨rfl, rfl⟩

theorem drop_neg_resolves (d : Deque) (index : Int) (hneg : index < 0)
    (hok : 0 ≤ d.qcap + index) : d.drop index = d.drop (d.qcap + index) := by
  unfold Deque.drop
  rw [if_pos hneg, if_neg (by omega)]

theorem applyOp_qcap (d : Deque) (op : DOp) : (applyOp d op).qcap = d.qcap := by
  cases op <;>
    simp only [applyOp, put, putWrite, shiftIfRightFull, putEvict, putleft, putleftWrite,
      putleftDec, putleftEvict, putter, putterOverwrite, putterWrite, putterShift,
      putterEvict, putterleft, putterleftOverwrite, putterleftWrite, putterleftShift,
      putterleftEvict, Deque.drop, dropAt, pop, popleft, _shift_buffer] <;>
    split_ifs <;> rfl

theorem runOps_qcap (d : Deque) (ops : List DOp) : (runOps d ops).qcap = d.qcap := by
  induction ops generalizing d with
  | nil => rfl
  | cons op rest ih =>
      unfold runOps at *
      rw [List.foldl_cons, ih (applyOp d op), applyOp_qcap]

/-- The deque `NumpyDeque(0, priority="rightonly")` constructs: maxsize is
clamped to 0, `_get_buffer_size` returns 32, the "rightonly" branch puts
the anchor at `_s = 0`, and the window starts empty at `_i = _j = 0`. -/
def dZeroRO : Deque :=
  { data := fun _ => 0
    qcap := 0
    bcap := 32
    prio := ['r', 'o']
    s := 0
    i := 0
    j := 0 }

/-- Claim C1 counterexample: the claim quantifies over ANY maxsize, but on
`NumpyDeque(0, priority="rightonly")` — a valid priority and a maxsize the
constructor deliberately admits (`if maxsize < 1: maxsize = 0`) — the 33rd
consecutive `put` first evicts (`_i` becomes 33), then calls
`_shift_buffer`, which executes `self._data[0:-1] = self._data[33:32]`:
Python wraps the negative stop so the destination has 31 cells while the
source has 0, numpy raises `ValueError`, and the object is left with
`_i = 33 > _j = 32`, violating `_i ≤ _j`.  A subsequently completed `pop`
(it runs to completion, since `_i ≠ _j`) leaves `_i = 33 > _j = 31`. -/
theorem c1_counterexample :
    NumpyDeque_new 0 none none ("rightonly".toList) none = Except.ok dZeroRO ∧
    ("rightonly".toList ∈ validPriorities) ∧
    (runPutsObserved dZeroRO (List.replicate 33 1)).2 = true ∧
    (runPutsObserved dZeroRO (List.replicate 33 1)).1.i = 33 ∧
    (runPutsObserved dZeroRO (List.replicate 33 1)).1.j = 32 ∧
    ¬ ((runPutsObserved dZeroRO (List.replicate 33 1)).1.i
        ≤ (runPutsObserved dZeroRO (List.replicate 33 1)).1.j) ∧
    ¬ ((pop (runPutsObserved dZeroRO (List.replicate 33 1)).1).2.i
        ≤ (pop (runPutsObserved dZeroRO (List.replicate 33 1)).1).2.j) :=
  ⟨rfl, by decide, by decide, by decide, by decide, by decide, by decide⟩

/-- Amended claim C1: for every deque constructed with maxsize ≥ 1 and any
valid priority (default buffer padding), and every finite sequence of
`put`, `putleft`, `putter`, `putterleft`, `drop`, `pop`, `popleft`
operations, after each operation `0 ≤ _i ≤ _j ≤ _bcap` and
`size = _j - _i ≤ maxsize` hold (maxsize being the deque's `_qcap`, which
the operations never change).  The restriction to `maxsize ≥ 1` is forced
by the counterexample: every slice a `maxsize ≥ 1` deque executes has
nonnegative bounds and matching lengths, so no operation raises and the
total-state-transformer model is faithful, whereas a `maxsize = 0` deque
can abort a `put` inside `_shift_buffer` and break `_i ≤ _j`. -/
theorem c1_invariant_all_ops (maxsize : Int) (fill : Option Int) (priority : List Char)
    (d0 : Deque) (ops : List DOp)
    (hms : 1 ≤ maxsize)
    (hvalid : priority ∈ validPriorities)
    (hnew : NumpyDeque_new maxsize fill none priority none = Except.ok d0) :
    0 ≤ (runOps d0 ops).i ∧ (runOps d0 ops).i ≤ (runOps d0 ops).j ∧
    (runOps d0 ops).j ≤ (runOps d0 ops).bcap ∧
    (runOps d0 ops).size ≤ (runOps d0 ops).qcap ∧
    (runOps d0 ops).qcap = d0.qcap := by
  have h0 := dequeInv_new maxsize fill priority d0 hnew
  have h := dequeInv_runOps d0 ops h0
  obtain ⟨g1, g2, g3, g4, g5, g6, g7⟩ := h
  refine ⟨g1, g2, g3, ?_, runOps_qcap d0 ops⟩
  unfold Deque.size
  omega

theorem c1_invariant_all_ops_witness :
    ((1 : Int) ≤ 3 ∧ "right".toList ∈ validPriorities) ∧
    (0 ≤ (runOps { data := fun _ => 0, qcap := 3, bcap := 32, prio := ['r'], s := 7, i := 7, j := 7 }
        [DOp.put 1, DOp.put 2, DOp.putleft 5, DOp.drop 0, DOp.pop,
         DOp.putter [1, 2, 3, 4], DOp.putterleft [9], DOp.popleft]).i ∧
     (runOps { data := fun _ => 0, qcap := 3, bcap := 32, prio := ['r'], s := 7, i := 7, j := 7 }
        [DOp.put 1, DOp.put 2, DOp.putleft 5, DOp.drop 0, DOp.pop,
         DOp.putter [1, 2, 3, 4], DOp.putterleft [9], DOp.popleft]).i ≤
       (runOps { data := fun _ => 0, qcap := 3, bcap := 32, prio := ['r'], s := 7, i := 7, j := 7 }
        [DOp.put 1, DOp.put 2, DOp.putleft 5, DOp.drop 0, DOp.pop,
         DOp.putter [1, 2, 3, 4], DOp.putterleft [9], DOp.popleft]).j ∧
     (runOps { data := fun _ => 0, qcap := 3, bcap := 32, prio := ['r'], s := 7, i := 7, j := 7 }
        [DOp.put 1, DOp.put 2, DOp.putleft 5, DOp.drop 0, DOp.pop,
         DOp.putter [1, 2, 3, 4], DOp.putterleft [9], DOp.popleft]).j ≤
       (runOps { data := fun _ => 0, qcap := 3, bcap := 32, prio := ['r'], s := 7, i := 7, j := 7 }
        [DOp.put 1, DOp.put 2, DOp.putleft 5, DOp.drop 0, DOp.pop,
         DOp.putter [1, 2, 3, 4], DOp.putterleft [9], DOp.popleft]).bcap ∧
     (runOps { data := fun _ => 0, qcap := 3, bcap := 32, prio := ['r'], s := 7, i := 7, j := 7 }
        [DOp.put 1, DOp.put 2, DOp.putleft 5, DOp.drop 0, DOp.pop,
         DOp.putter [1, 2, 3, 4], DOp.putterleft [9], DOp.popleft]).size ≤
       (runOps { data := fun _ => 0, qcap := 3, bcap := 32, prio := ['r'], s := 7, i := 7, j := 7 }
        [DOp.put 1, DOp.put 2, DOp.putleft 5, DOp.drop 0, DOp.pop,
         DOp.putter [1, 2, 3, 4], DOp.putterleft [9], DOp.popleft]).qcap ∧
     (runOps { data := fun _ => 0, qcap := 3, bcap := 32, prio := ['r'], s := 7, i := 7, j := 7 }
        [DOp.put 1, DOp.put 2, DOp.putleft 5, DOp.drop 0, DOp.pop,
         DOp.putter [1, 2, 3, 4], DOp.putterleft [9], DOp.popleft]).qcap = 3) :=
  ⟨⟨by decide, by decide⟩,
   c1_invariant_all_ops 3 none ("right".toList) _ _ (by decide) (by decide) rfl⟩

/-- Claim C2: on a full deque with contents `[1,2,3,4,5]` and maxsize 5
(any priority, any buffer layout satisfying the invariant), `put 6` leaves
`[2,3,4,5,6]` (leftmost evicted) and `putleft 6` leaves `[6,1,2,3,4]`
(rightmost evicted). -/
theorem c2_eviction (d : Deque) (h : DequeInv d) (hq : d.qcap = 5)
    (hc : contents d = [1, 2, 3, 4, 5]) :
    contents (put d 6) = [2, 3, 4, 5, 6] ∧ contents (putleft d 6) = [6, 1, 2, 3, 4] := by
  constructor
  · rw [contents_put d 6 h, hq, hc]
    rfl
  · rw [contents_putleft d 6 h, hq, hc]
    rfl

/-- A concrete full deque holding `[1,2,3,4,5]` with maxsize 5: the state
`NumpyDeque.array([1,2,3,4,5], priority="right", _force_buffer_size=12)`
produces (up to uninitialised buffer garbage). -/
def dFull5 : Deque :=
  { data := fun k => if 1 ≤ k ∧ k < 6 then k else 0
    qcap := 5
    bcap := 12
    prio := ['r']
    s := 1
    i := 1
    j := 6 }

theorem c2_eviction_witness :
    (DequeInv dFull5 ∧ dFull5.qcap = 5 ∧ contents dFull5 = [1, 2, 3, 4, 5]) ∧
    contents (put dFull5 6) = [2, 3, 4, 5, 6] ∧
    contents (putleft dFull5 6) = [6, 1, 2, 3, 4] :=
  ⟨⟨by decide, rfl, by decide⟩, c2_eviction dFull5 (by decide) rfl (by decide)⟩

/-- Claim C3: on an empty deque with maxsize 5, `putter [1..7]` leaves
`[3,4,5,6,7]` and `putterleft [1..7]` leaves `[7,6,5,4,3]`, and in both
full-overwrite cases the window is reset to `[_s, _s + _qcap)`. -/
theorem c3_bulk_overwrite (d : Deque) (h : DequeInv d) (hq : d.qcap = 5)
    (hsz : d.size = 0) :
    contents (putter d [1, 2, 3, 4, 5, 6, 7]) = [3, 4, 5, 6, 7] ∧
    (putter d [1, 2, 3, 4, 5, 6, 7]).i = d.s ∧
    (putter d [1, 2, 3, 4, 5, 6, 7]).j = d.s + d.qcap ∧
    contents (putterleft d [1, 2, 3, 4, 5, 6, 7]) = [7, 6, 5, 4, 3] ∧
    (putterleft d [1, 2, 3, 4, 5, 6, 7]).i = d.s ∧
    (putterleft d [1, 2, 3, 4, 5, 6, 7]).j = d.s + d.qcap := by
  have hc : contents d = [] := by
    have hl := contents_length d
    unfold Deque.size at hsz
    refine List.length_eq_zero.mp ?_
    omega
  have hov : ((([1, 2, 3, 4, 5, 6, 7] : List Int)).length : Int) ≥ d.qcap := by
    rw [hq]
    decide
  refine ⟨?_, ?_, ?_, ?_, ?_, ?_⟩
  · rw [contents_putter d _ h, hq, hc]
    rfl
  · unfold putter
    rw [if_pos hov]
    rfl
  · unfold putter
    rw [if_pos hov]
    rfl
  · rw [contents_putterleft d _ h, hq, hc]
    rfl
  · unfold putterleft
    rw [if_pos hov]
    rfl
  · unfold putterleft
    rw [if_pos hov]
    rfl

/-- A concrete empty deque with maxsize 5: the state
`NumpyDeque(5, priority="right", _force_buffer_size=12)` produces. -/
def dEmpty5 : Deque :=
  { data := fun _ => 0
    qcap := 5
    bcap := 12
    prio := ['r']
    s := 1
    i := 1
    j := 1 }

theorem c3_bulk_overwrite_witness :
    (DequeInv dEmpty5 ∧ dEmpty5.qcap = 5 ∧ dEmpty5.size = 0) ∧
    contents (putter dEmpty5 [1, 2, 3, 4, 5, 6, 7]) = [3, 4, 5, 6, 7] ∧
    (putter dEmpty5 [1, 2, 3, 4, 5, 6, 7]).i = dEmpty5.s ∧
    (putter dEmpty5 [1, 2, 3, 4, 5, 6, 7]).j = dEmpty5.s + dEmpty5.qcap ∧
    contents (putterleft dEmpty5 [1, 2, 3, 4, 5, 6, 7]) = [7, 6, 5, 4, 3] ∧
    (putterleft dEmpty5 [1, 2, 3, 4, 5, 6, 7]).i = dEmpty5.s ∧
    (putterleft dEmpty5 [1, 2, 3, 4, 5, 6, 7]).j = dEmpty5.s + dEmpty5.qcap :=
  ⟨⟨by decide, rfl, rfl⟩, c3_bulk_overwrite dEmpty5 (by decide) rfl rfl⟩

/-- Claim C7: for every deque state (any size, empty or not, any priority)
satisfying the window invariant, `drop(-1)` is exactly `pop()` (same value,
same state), `drop(0)` returns the same value and leaves the same
observable contents as `popleft()`, and a negative index is resolved by
adding `_qcap` (maxsize) once, not the current size. -/
theorem c7_drop_boundary (d : Deque) (h : DequeInv d) :
    d.drop (-1) = pop d ∧
    ((d.drop 0).1 = (popleft d).1 ∧ contents (d.drop 0).2 = contents (popleft d).2) ∧
    (∀ index : Int, index < 0 → 0 ≤ d.qcap + index →
      d.drop index = d.drop (d.qcap + index)) :=
  ⟨drop_neg_one_eq_pop d h, drop_zero_popleft d h,
   fun index hneg hok => drop_neg_resolves d index hneg hok⟩

/-- A concrete deque `[4,5,6]` with maxsize 5 (current size below maxsize),
as three puts on `NumpyDeque(5, priority="right", _force_buffer_size=12)`
produce. -/
def dPart3 : Deque :=
  { data := fun k => if 1 ≤ k ∧ k < 4 then k + 3 else 0
    qcap := 5
    bcap := 12
    prio := ['r']
    s := 1
    i := 1
    j := 4 }

theorem c7_drop_boundary_witness :
    DequeInv dPart3 ∧
    (dPart3.drop (-1) = pop dPart3 ∧
     ((dPart3.drop 0).1 = (popleft dPart3).1 ∧
      contents (dPart3.drop 0).2 = contents (popleft dPart3).2) ∧
     (∀ index : Int, index < 0 → 0 ≤ dPart3.qcap + index →
       dPart3.drop index = dPart3.drop (dPart3.qcap + index))) :=
  ⟨by decide, c7_drop_boundary dPart3 (by decide)⟩

/-- Claim C8: on every empty deque (`size = 0`), `pop()` and `popleft()`
return the no-value sentinel `None` and leave the entire state (cursors,
buffer, and hence observable contents) unchanged. -/
theorem c8_empty_pop (d : Deque) (h : d.size = 0) :
    pop d = (none, d) ∧ popleft d = (none, d) := by
  have hij : d.i = d.j := by
    unfold Deque.size at h
    omega
  unfold pop popleft
  rw [if_pos hij, if_pos hij]
  exact ⟨rfl, rfl⟩

/-- A concrete empty deque with maxsize 4. -/
def dEmpty4 : Deque :=
  { data := fun _ => 0
    qcap := 4
    bcap := 16
    prio := ['e']
    s := 6
    i := 6
    j := 6 }

theorem c8_empty_pop_witness :
    Deque.size dEmpty4 = 0 ∧
    (pop dEmpty4 = (none, dEmpty4) ∧ popleft dEmpty4 = (none, dEmpty4)) :=
  ⟨rfl, c8_empty_pop dEmpty4 rfl⟩

/-- Claim C10: for every deque satisfying the window invariant and every
value list, `putter values` leaves exactly the same observable contents as
folding `put` over `values` one by one (this covers the full-overwrite fast
path and the buffer-shift cases). -/
theorem c10_putter_refines_put (d : Deque) (vs : List Int) (h : DequeInv d) :
    contents (putter d vs) = contents (List.foldl put d vs) := by
  rw [contents_putter d vs h, contents_foldl_put d vs h]

/-- A concrete deque `[4,5,6]` with maxsize 5 in a tight buffer, so that
`putter` exercises both the batched eviction and the shift. -/
def dPart3c10 : Deque :=
  { data := fun k => if 1 ≤ k ∧ k < 4 then k + 3 else 0
    qcap := 5
    bcap := 7
    prio := ['r']
    s := 1
    i := 1
    j := 4 }

theorem c10_putter_refines_put_witness :
    DequeInv dPart3c10 ∧
    contents (putter dPart3c10 [7, 8, 9, 10]) =
      contents (List.foldl put dPart3c10 [7, 8, 9, 10]) :=
  ⟨by decide, c10_putter_refines_put dPart3c10 [7, 8, 9, 10] (by decide)⟩

/-- A concrete empty deque with maxsize 5, as
`NumpyDeque(5, priority="right", _force_buffer_size=12)` produces. -/
def dEmptyC4 : Deque :=
  { data := fun _ => 0
    qcap := 5
    bcap := 12
    prio := ['r']
    s := 1
    i := 1
    j := 1 }

/-- Claim C4 counterexample: on an empty deque with maxsize 5 and the input
`[1..7]`, `putterleft` leaves `[7,6,5,4,3]`, but the last 5 elements of the
reversed input are `[5,4,3,2,1]` — the claim predicts the wrong list.  The
code takes the FIRST maxsize elements of the reversed input
(`values[::-1][:maxsize]`). -/
theorem c4_counterexample :
    dEmptyC4.qcap = 5 ∧
    contents (putterleft dEmptyC4 [1, 2, 3, 4, 5, 6, 7]) = [7, 6, 5, 4, 3] ∧
    lastN 5 (([1, 2, 3, 4, 5, 6, 7] : List Int).reverse) = [5, 4, 3, 2, 1] ∧
    ¬ contents (putterleft dEmptyC4 [1, 2, 3, 4, 5, 6, 7])
        = lastN 5 (([1, 2, 3, 4, 5, 6, 7] : List Int).reverse) :=
  ⟨rfl, by decide, by decide, by decide⟩

/-- Amended claim C4: for every deque and every values list with
`len(values) ≥ maxsize`, after `putterleft(values)` the contents equal the
FIRST maxsize elements of the reversed input (equivalently, the reverse of
the last maxsize elements of the input) — not the last maxsize elements of
the reversed input. -/
theorem c4_putterleft_overwrite (d : Deque) (vs : List Int) (hq : 0 ≤ d.qcap)
    (hov : (vs.length : Int) ≥ d.qcap) :
    contents (putterleft d vs) = vs.reverse.take d.qcap.toNat := by
  unfold putterleft
  rw [if_pos hov]
  unfold putterleftOverwrite
  rw [contents_eq_window]
  dsimp only
  have hl : ((vs.reverse.take d.qcap.toNat).length : Int) = d.qcap := by
    rw [List.length_take, List.length_reverse]
    omega
  rw [show d.s + d.qcap
      = d.s + ((vs.reverse.take d.qcap.toNat).length : Int) from by omega]
  rw [window_sliceWriteList]

theorem c4_putterleft_overwrite_witness :
    ((0 : Int) ≤ dEmptyC4.qcap ∧
     ((([1, 2, 3, 4, 5, 6, 7] : List Int).length : Int) ≥ dEmptyC4.qcap)) ∧
    contents (putterleft dEmptyC4 [1, 2, 3, 4, 5, 6, 7])
      = ([1, 2, 3, 4, 5, 6, 7] : List Int).reverse.take (Int.toNat dEmptyC4.qcap) :=
  ⟨⟨by decide, by decide⟩,
   c4_putterleft_overwrite dEmptyC4 [1, 2, 3, 4, 5, 6, 7] (by decide) (by decide)⟩

/-- The intermediate state that `putleft` reaches on
`NumpyDeque(5, priority="rightonly", _force_buffer_size=12)` immediately
before it calls `_shift_buffer`: `_i` has just been decremented to `-1`
(the left-exhausted trigger). -/
def dLeftExhausted : Deque :=
  { data := fun _ => 0
    qcap := 5
    bcap := 12
    prio := ['r', 'o']
    s := 0
    i := -1
    j := 0 }

/-- Claim C6 counterexample: entering `_shift_buffer` left-exhausted
(`_i = -1`), the code sets `self._i, self._j = self._s, j` — so immediately
after the shift `_i` equals `_s`, not `_s + 1` as the claim states. -/
theorem c6_counterexample :
    dLeftExhausted.i = -1 ∧
    (_shift_buffer dLeftExhausted).i = dLeftExhausted.s ∧
    ¬ (_shift_buffer dLeftExhausted).i = dLeftExhausted.s + 1 :=
  ⟨rfl, rfl, by decide⟩

/-- Amended claim C6: after any triggered shift (entry with `_i ≥ 0`, the
right-exhausted/general case, or `_i = -1`, the left-exhausted case), the
cursor `_i` equals the anchor offset `_s` in BOTH cases; in the
left-exhausted case it is the relocated pre-existing content that begins at
`_s + 1` (slot `_s` is reserved for the incoming `putleft` value), and `_j`
becomes `_s + 1 + _j`. -/
theorem c6_shift_anchor (d : Deque) (h : -1 ≤ d.i) :
    (_shift_buffer d).i = d.s ∧
    (d.i = -1 →
      (_shift_buffer d).j = d.s + 1 + d.j ∧
      window (_shift_buffer d).data (d.s + 1) (d.s + 1 + d.j) = window d.data 0 d.j) := by
  constructor
  · unfold _shift_buffer
    split_ifs <;> first | rfl | omega
  · intro h1
    rw [shift_left_spec d h1]
    refine ⟨rfl, ?_⟩
    rw [window_sliceCopy]
    congr 1
    omega

theorem c6_shift_anchor_witness :
    ((-1 : Int) ≤ dLeftExhausted.i) ∧
    ((_shift_buffer dLeftExhausted).i = dLeftExhausted.s ∧
     (dLeftExhausted.i = -1 →
       (_shift_buffer dLeftExhausted).j = dLeftExhausted.s + 1 + dLeftExhausted.j ∧
       window (_shift_buffer dLeftExhausted).data (dLeftExhausted.s + 1)
           (dLeftExhausted.s + 1 + dLeftExhausted.j)
         = window dLeftExhausted.data 0 dLeftExhausted.j)) :=
  ⟨by decide, c6_shift_anchor dLeftExhausted (by decide)⟩

theorem clampMaxsize_eq (x : Int) (h : 0 ≤ x) : clampMaxsize x = x := by
  unfold clampMaxsize
  split_ifs <;> omega

theorem mkInit_fields (m : Int) (hm : clampMaxsize m = m) (force S : Int) (P : List Char) :
    mkInit m none (some force) S P none =
      { data := fun _ => 0, qcap := m, bcap := max m force, prio := P, s := S, i := S, j := S } := by
  unfold mkInit mkState
  rw [hm]
  rfl

theorem new_flag_spec (m : Int) (hm : 0 ≤ m) (force : Int) (prio : List Char)
    (hp : prio = ['e'] ∨ prio = ['r'] ∨ prio = ['l'] ∨ prio = ['r', 'o'] ∨ prio = ['l', 'o']) :
    ∃ e, NumpyDeque_new m none none prio (some force) = Except.ok e ∧
      e.qcap = m ∧ e.bcap = max m force ∧ e.i = e.s ∧ e.j = e.s ∧
      e.prio = (if max m force - m < 2 then ['r', 'o'] else prio) := by
  have hclm : clampMaxsize m = m := clampMaxsize_eq m hm
  have hpadv : initPad m none (some force) = max m force - m := by
    unfold initPad initBcap
    rw [hclm]
  rcases hp with hpr | hpr | hpr | hpr | hpr <;> subst hpr
  · unfold NumpyDeque_new
    rw [show normPriority ['e'] = ['e'] from by decide]
    dsimp only
    rw [hpadv]
    by_cases hpd : max m force - m < 2
    · rw [if_pos hpd, mkInit_fields m hclm]
      refine ⟨_, rfl, rfl, rfl, rfl, rfl, ?_⟩
      rw [if_pos hpd]
    · rw [if_neg hpd, if_pos (show ('e' : Char) = 'e' from rfl), mkInit_fields m hclm]
      refine ⟨_, rfl, rfl, rfl, rfl, rfl, ?_⟩
      rw [if_neg hpd]
      dsimp only
      decide
  · unfold NumpyDeque_new
    rw [show normPriority ['r'] = ['r'] from by decide]
    dsimp only
    rw [hpadv]
    by_cases hpd : max m force - m < 2
    · rw [if_pos hpd, mkInit_fields m hclm]
      refine ⟨_, rfl, rfl, rfl, rfl, rfl, ?_⟩
      rw [if_pos hpd]
    · rw [if_neg hpd, if_neg (show ¬('r' : Char) = 'e' from by decide),
        if_pos (show ('r' : Char) = 'r' from rfl),
        if_neg (show ¬('o' ∈ (['r'] : List Char)) from by decide), mkInit_fields m hclm]
      refine ⟨_, rfl, rfl, rfl, rfl, rfl, ?_⟩
      rw [if_neg hpd]
      dsimp only
      decide
  · unfold NumpyDeque_new
    rw [show normPriority ['l'] = ['l'] from by decide]
    dsimp only
    rw [hpadv]
    by_cases hpd : max m force - m < 2
    · rw [if_pos hpd, mkInit_fields m hclm]
      refine ⟨_, rfl, rfl, rfl, rfl, rfl, ?_⟩
      rw [if_pos hpd]
    · rw [if_neg hpd, if_neg (show ¬('l' : Char) = 'e' from by decide),
        if_neg (show ¬('l' : Char) = 'r' from by decide),
        if_pos (show ('l' : Char) = 'l' from rfl),
        if_neg (show ¬('o' ∈ (['l'] : List Char)) from by decide), mkInit_fields m hclm]
      refine ⟨_, rfl, rfl, rfl, rfl, rfl, ?_⟩
      rw [if_neg hpd]
      dsimp only
      decide
  · unfold NumpyDeque_new
    rw [show normPriority ['r', 'o'] = ['r', 'o'] from by decide]
    dsimp only
    rw [hpadv]
    by_cases hpd : max m force - m < 2
    · rw [if_pos hpd, mkInit_fields m hclm]
      refine ⟨_, rfl, rfl, rfl, rfl, rfl, ?_⟩
      rw [if_pos hpd]
    · rw [if_neg hpd, if_neg (show ¬('r' : Char) = 'e' from by decide),
        if_pos (show ('r' : Char) = 'r' from rfl),
        if_pos (show ('o' ∈ (['r', 'o'] : List Char)) from by decide), mkInit_fields m hclm]
      refine ⟨_, rfl, rfl, rfl, rfl, rfl, ?_⟩
      rw [if_neg hpd]
      dsimp only
      decide
  · unfold NumpyDeque_new
    rw [show normPriority ['l', 'o'] = ['l', 'o'] from by decide]
    dsimp only
    rw [hpadv]
    by_cases hpd : max m force - m < 2
    · rw [if_pos hpd, mkInit_fields m hclm]
      refine ⟨_, rfl, rfl, rfl, rfl, rfl, ?_⟩
      rw [if_pos hpd]
    · rw [if_neg hpd, if_neg (show ¬('l' : Char) = 'e' from by decide),
        if_neg (show ¬('l' : Char) = 'r' from by decide),
        if_pos (show ('l' : Char) = 'l' from rfl),
        if_pos (show ('o' ∈ (['l', 'o'] : List Char)) from by decide), mkInit_fields m hclm]
      refine ⟨_, rfl, rfl, rfl, rfl, rfl, ?_⟩
      rw [if_neg hpd]
      dsimp only
      decide

/-- Observation helper: the `_qcap` (maxsize) of a construction result, or
`-1` if construction raised. -/
def qcapOf : Except InitError Deque → Int
  | Except.ok c => c.qcap
  | Except.error _ => -1

/-- A concrete deque holding `[10]` with maxsize 5 (size 1 < maxsize 5), as
`NumpyDeque(5, priority="right", _force_buffer_size=12)` followed by
`put(10)` produces. -/
def dSmallC5 : Deque :=
  { data := fun k => if k = 1 then 10 else 0
    qcap := 5
    bcap := 12
    prio := ['r']
    s := 1
    i := 1
    j := 2 }

/-- Claim C5 counterexample: `copy()` of a deque whose current size (1) is
below its maxsize (5) returns an instance whose maxsize is 1, not 5 —
`copy` calls `NumpyDeque.array(self.deque, None, ...)` and `array` derives
`maxsize` from the length of the passed contents. -/
theorem c5_counterexample :
    dSmallC5.qcap = 5 ∧
    qcapOf (Deque.copy dSmallC5) = 1 ∧
    ¬ qcapOf (Deque.copy dSmallC5) = dSmallC5.qcap :=
  ⟨rfl, by decide, by decide⟩

/-- Amended claim C5: for every deque satisfying the window invariant whose
priority flag is one of the five legal flags (with the flag forced to "ro"
whenever the construction-time pad was below 2, as `__init__` guarantees),
`copy()` returns a new instance with the same priority mode, the same
buffer capacity, and the same contents — but its maxsize equals the CURRENT
size of the source, so it equals the source's maxsize only when the source
is full. -/
theorem c5_copy_spec (d : Deque) (h : DequeInv d)
    (hp : d.prio = ['e'] ∨ d.prio = ['r'] ∨ d.prio = ['l'] ∨
          d.prio = ['r', 'o'] ∨ d.prio = ['l', 'o'])
    (hro : d.bcap - d.qcap < 2 → d.prio = ['r', 'o']) :
    ∃ c, Deque.copy d = Except.ok c ∧ c.qcap = d.size ∧ c.bcap = d.bcap ∧
      c.prio = d.prio ∧ contents c = contents d := by
  obtain ⟨h1, h2, h3, h4, h5, h6, h7⟩ := h
  have hlen : ((contents d).length : Int) = d.j - d.i := by
    rw [contents_length]
    omega
  obtain ⟨e, he, heq, heb, hei, hej, hep⟩ :=
    new_flag_spec ((contents d).length : Int) (by omega) d.bcap d.prio hp
  have hmax : max ((contents d).length : Int) d.bcap = d.bcap :=
    max_eq_right (by omega)
  unfold Deque.copy NumpyDeque_array
  dsimp only
  rw [he]
  refine ⟨_, rfl, ?_, ?_, ?_, ?_⟩
  · dsimp only
    rw [heq]
    unfold Deque.size
    omega
  · dsimp only
    rw [heb, hmax]
  · dsimp only
    rw [hep]
    split_ifs with hpd
    · rw [hmax] at hpd
      exact (hro (by omega)).symm
    · rfl
  · rw [contents_eq_window]
    dsimp only
    exact window_sliceWriteList e.data e.s (contents d)

theorem c5_copy_spec_witness :
    (DequeInv dSmallC5 ∧
     (dSmallC5.prio = ['e'] ∨ dSmallC5.prio = ['r'] ∨ dSmallC5.prio = ['l'] ∨
      dSmallC5.prio = ['r', 'o'] ∨ dSmallC5.prio = ['l', 'o']) ∧
     (dSmallC5.bcap - dSmallC5.qcap < 2 → dSmallC5.prio = ['r', 'o'])) ∧
    (∃ c, Deque.copy dSmallC5 = Except.ok c ∧ c.qcap = dSmallC5.size ∧
      c.bcap = dSmallC5.bcap ∧ c.prio = dSmallC5.prio ∧ contents c = contents dSmallC5) :=
  ⟨⟨by decide, by decide, by decide⟩,
   c5_copy_spec dSmallC5 (by decide) (by decide) (by decide)⟩

